import Mathlib

/-!
Verification development for the hook-exporter metrics gateway
(`router.go`, `config.go`, `main.go`).  The Go source is shallowly
embedded: regular expressions become executable character predicates,
the Go tag map becomes an association list iterated in list order, the
S3 object store becomes a function from keys to fetch outcomes, and the
JSON boundary becomes a small JSON value type with explicit
encode/decode functions.
-/

namespace HookExporter

/-- Characters accepted by the class of textRegex, the Go pattern
anchored word-hyphen-slash class (backslash-w, hyphen, slash), one or
more times: Go word characters are ASCII letters, digits and
underscore. -/
def isWordChar (ch : Char) : Bool :=
  ch.isAlphanum || ch = '_' || ch = '-' || ch = '/'

/-- textRegex.MatchString: the whole string is one or more word
characters, hyphens or slashes.  The pattern is anchored at both ends
and its class never matches a newline. -/
def textMatch (s : String) : Bool :=
  !s.data.isEmpty && s.data.all isWordChar

/-- valueRegex.MatchString for the literal pattern
caret backslash-d+ ( . backslash-+ )? dollar: one or more ASCII digits,
optionally followed by one arbitrary non-newline character and then a
literal plus sign.  The dot of the pattern does not match a newline in
Go's default mode.  Backtracking is captured by inspecting the reversed
character list: either all digits, or a final plus preceded by one
non-newline character preceded by a nonempty digit run. -/
def valueMatch (s : String) : Bool :=
  (!s.data.isEmpty && s.data.all Char.isDigit) ||
  (match s.data.reverse with
   | '+' :: ch :: rest => (ch != '\n') && !rest.isEmpty && rest.all Char.isDigit
   | _ => false)

/-- Go struct metric: Name, Type, Tags, Value.  The Go field Type is
named MType here because Type is a Lean keyword.  The Go map
map[string]string becomes an association list; its iteration order is
the list order. -/
structure metric where
  Name : String
  MType : String
  Tags : List (String × String)
  Value : String
deriving DecidableEq

/-- Go struct metricFile: FileName (json key name) and Metrics. -/
structure metricFile where
  FileName : String
  Metrics : List metric
deriving DecidableEq

/-- strings.Join: concatenate the elements with the separator between
consecutive elements. -/
def joinSep (sep : String) : List String → String
  | [] => ""
  | [x] => x
  | x :: xs => x ++ sep ++ joinSep sep xs

/-- metric.TagString: empty string when the tag map is empty, otherwise
the key="value" pairs joined by commas inside braces, in map-iteration
(here: list) order. -/
def metric.TagString (m : metric) : String :=
  if m.Tags.length = 0 then ""
  else "\x7b" ++ joinSep "," (m.Tags.map fun kv => kv.1 ++ "=\"" ++ kv.2 ++ "\"") ++ "\x7d"

/-- metric.String: the Sprintf of the format
"# TYPE %s %s\n%s%s %s\n\n" applied to Name, Type, Name, TagString,
Value. -/
def metric.String (m : metric) : String :=
  "# TYPE " ++ m.Name ++ " " ++ m.MType ++ "\n" ++ m.Name ++ m.TagString ++ " " ++ m.Value ++ "\n\n"

/-- The tag-validation loop inside metric.Validate: every key and every
value must match textRegex, with early false on the first mismatch. -/
def validateTags : List (String × String) → Bool
  | [] => true
  | kv :: rest =>
    if !textMatch kv.1 then false
    else if !textMatch kv.2 then false
    else validateTags rest

/-- metric.Validate: early return false when Name, Type or Value fails
its regex, then the tag loop. -/
def metric.Validate (m : metric) : Bool :=
  if !textMatch m.Name then false
  else if !textMatch m.MType then false
  else if !valueMatch m.Value then false
  else validateTags m.Tags

/-- metricFile.String: the strings.Builder loop appending each metric's
rendering in sequence order. -/
def metricFile.String (mf : metricFile) : String :=
  mf.Metrics.foldl (fun sb x => sb ++ x.String) ""

/-- metricFile.Validate: false when FileName is empty, otherwise every
contained metric must validate. -/
def metricFile.Validate (mf : metricFile) : Bool :=
  if mf.FileName = "" then false
  else mf.Metrics.all fun x => x.Validate

/-- The outcome of fetching and JSON-decoding one stored object in
readMetricFile: a GetObject or body-read error, a json.Unmarshal
error, or a decoded metricFile (validation is a separate later step). -/
inductive fetchResult where
  | fetchErr : String → fetchResult
  | decodeErr : String → fetchResult
  | ok : metricFile → fetchResult
deriving DecidableEq

/-- readMetricFile: fetch the object, decode it, then validate; a
validation failure is reported as "failed validation for " followed by
the object key.  The store collaborator is a function from keys to
fetch outcomes. -/
def readMetricFile (store : String → fetchResult) (f : String) : Except String metricFile :=
  match store f with
  | .fetchErr e => .error e
  | .decodeErr e => .error e
  | .ok mf => if !mf.Validate then .error ("failed validation for " ++ f) else .ok mf

/-- The loop of readMetrics: visit the listed keys in order, appending
each fetched file's metrics to the accumulator; on the first error
return the zero metricFile (empty name, no metrics) with the error. -/
def readMetricsLoop (store : String → fetchResult) : List String → metricFile → metricFile × Option String
  | [], acc => (acc, none)
  | f :: fs, acc =>
    match readMetricFile store f with
    | .error e => (⟨"", []⟩, some e)
    | .ok mf => readMetricsLoop store fs ⟨acc.FileName, acc.Metrics ++ mf.Metrics⟩

/-- readMetrics applied to an already-obtained object listing: start
from the synthetic file named with the reserved identifier and no
metrics, then run the loop. -/
def readMetricsFrom (store : String → fetchResult) (files : List String) : metricFile × Option String :=
  readMetricsLoop store files ⟨"__all__", []⟩

/-- The pagination loop of listMetricFiles: each page either fails or
yields the keys of its contents; on a page error return the empty list
with the error, otherwise append the page's keys in order. -/
def listMetricFilesLoop : List (Except String (List String)) → List String → Except String (List String)
  | [], acc => .ok acc
  | p :: ps, acc =>
    match p with
    | .error e => .error e
    | .ok keys => listMetricFilesLoop ps (acc ++ keys)

/-- listMetricFiles: paginate over the bucket listing starting from an
empty key list. -/
def listMetricFiles (pages : List (Except String (List String))) : Except String (List String) :=
  listMetricFilesLoop pages []

/-- readMetrics: list the bucket, then aggregate over the listing; a
listing error returns the zero metricFile with the error. -/
def readMetrics (store : String → fetchResult) (pages : List (Except String (List String))) : metricFile × Option String :=
  match listMetricFiles pages with
  | .error e => (⟨"", []⟩, some e)
  | .ok files => readMetricsFrom store files

/-- An events.Response produced by the handlers: events.Fail with a
message or events.Succeed with a body. -/
inductive response where
  | fail : String → response
  | succeed : String → response
deriving DecidableEq

/-- metricHandler: decode the request body, unmarshal it, validate,
re-marshal, load the client, then PutObject under the file's own name.
Each collaborator step is passed in as its outcome.  The second
component records the PutObject calls attempted, as key-content pairs,
so that the absence of a store write is observable. -/
def metricHandler (body : Except String String)
    (unmarshal : String → Except String metricFile)
    (marshal : metricFile → Except String String)
    (client : Except String Unit)
    (put : String → String → Except String Unit) :
    response × List (String × String) :=
  match body with
  | .error e => (.fail ("failed to decode: " ++ e), [])
  | .ok b =>
    match unmarshal b with
    | .error e => (.fail ("failed to unmarshal: " ++ e), [])
    | .ok mf =>
      if !mf.Validate then (.fail "failed validation", [])
      else
        match marshal mf with
        | .error e => (.fail ("failed to marshal: " ++ e), [])
        | .ok content =>
          match client with
          | .error e => (.fail ("failed to load client: " ++ e), [])
          | .ok _ =>
            match put mf.FileName content with
            | .error e => (.fail ("failed to write: " ++ e), [(mf.FileName, content)])
            | .ok _ => (.succeed "", [(mf.FileName, content)])

/-- JSON values as they cross the encoding/json boundary: only the
shapes this program produces and consumes are modelled (strings,
arrays, objects as ordered field lists). -/
inductive Json where
  | str : String → Json
  | arr : List Json → Json
  | obj : List (String × Json) → Json

/-- Field lookup in a JSON object; none for a missing field or a
non-object. -/
def Json.getField : Json → String → Option Json
  | .obj kvs, k => kvs.lookup k
  | _, _ => none

/-- json.Marshal of a metric: the struct fields in declaration order,
with the tag map as an object in iteration order. -/
def encodeMetric (m : metric) : Json :=
  .obj [("name", .str m.Name), ("type", .str m.MType),
        ("tags", .obj (m.Tags.map fun kv => (kv.1, .str kv.2))),
        ("value", .str m.Value)]

/-- json.Marshal of a metricFile: the name field then the metrics
array. -/
def encodeMetricFile (mf : metricFile) : Json :=
  .obj [("name", .str mf.FileName), ("metrics", .arr (mf.Metrics.map encodeMetric))]

/-- json.Unmarshal of a string-typed field: a missing field leaves the
Go zero value (the empty string); a present field must be a JSON
string. -/
def decodeStrField (j : Option Json) : Except String String :=
  match j with
  | none => .ok ""
  | some (.str s) => .ok s
  | some _ => .error "cannot unmarshal into field of type string"

/-- json.Unmarshal of the entries of the tags object: every value must
be a JSON string; the first failure wins. -/
def decodeTagList : List (String × Json) → Except String (List (String × String))
  | [] => .ok []
  | kv :: rest =>
    match kv.2 with
    | .str s =>
      match decodeTagList rest with
      | .ok ts => .ok ((kv.1, s) :: ts)
      | .error e => .error e
    | _ => .error "cannot unmarshal into map of type string"

/-- json.Unmarshal of the tags field: a missing field leaves the nil
map; a present field must be an object of string values. -/
def decodeTagsField (j : Option Json) : Except String (List (String × String)) :=
  match j with
  | none => .ok []
  | some (.obj kvs) => decodeTagList kvs
  | some _ => .error "cannot unmarshal into field of type map"

/-- json.Unmarshal of one metric object: read the four fields, failing
on the first field of the wrong shape. -/
def decodeMetric (j : Json) : Except String metric :=
  match j with
  | .obj _ =>
    match decodeStrField (j.getField "name"), decodeStrField (j.getField "type"),
          decodeTagsField (j.getField "tags"), decodeStrField (j.getField "value") with
    | .ok n, .ok t, .ok tags, .ok v => .ok ⟨n, t, tags, v⟩
    | .error e, _, _, _ => .error e
    | _, .error e, _, _ => .error e
    | _, _, .error e, _ => .error e
    | _, _, _, .error e => .error e
  | _ => .error "cannot unmarshal into metric"

/-- json.Unmarshal of the elements of the metrics array. -/
def decodeMetricList : List Json → Except String (List metric)
  | [] => .ok []
  | x :: xs =>
    match decodeMetric x with
    | .ok m =>
      match decodeMetricList xs with
      | .ok ms => .ok (m :: ms)
      | .error e => .error e
    | .error e => .error e

/-- json.Unmarshal of the metrics field: a missing field leaves the nil
slice; a present field must be an array of metric objects. -/
def decodeMetricsField (j : Option Json) : Except String (List metric) :=
  match j with
  | none => .ok []
  | some (.arr xs) => decodeMetricList xs
  | some _ => .error "cannot unmarshal into field of type slice"

/-- json.Unmarshal of a metricFile object. -/
def decodeMetricFile (j : Json) : Except String metricFile :=
  match j with
  | .obj _ =>
    match decodeStrField (j.getField "name"), decodeMetricsField (j.getField "metrics") with
    | .ok n, .ok ms => .ok ⟨n, ms⟩
    | .error e, _ => .error e
    | _, .error e => .error e
  | _ => .error "cannot unmarshal into metricFile"

/-- The language of textRegex, stated as a proposition over the
character list: nonempty and all word characters, hyphens or
slashes. -/
def textPattern (s : String) : Prop :=
  s.data ≠ [] ∧ ∀ c ∈ s.data, isWordChar c = true

/-- The language of valueRegex, stated as a proposition: a nonempty
ASCII digit run, alone or followed by one non-newline character and a
literal plus sign. -/
def valuePattern (s : String) : Prop :=
  ∃ ds : List Char, ds ≠ [] ∧ (∀ c ∈ ds, c.isDigit = true) ∧
    (s.data = ds ∨ ∃ c : Char, c ≠ '\n' ∧ s.data = ds ++ [c, '+'])

theorem textMatch_iff (s : String) : textMatch s = true ↔ textPattern s := by
  simp [textMatch, textPattern, List.isEmpty_iff, List.all_eq_true]

theorem valueMatch_iff (s : String) : valueMatch s = true ↔ valuePattern s := by
  unfold valueMatch valuePattern
  constructor
  · intro h
    rw [Bool.or_eq_true] at h
    rcases h with h | h
    · rw [Bool.and_eq_true] at h
      refine ⟨s.data, ?_, ?_, Or.inl rfl⟩
      · simpa [List.isEmpty_iff] using h.1
      · simpa [List.all_eq_true] using h.2
    · split at h
      · rename_i ch rest heq
        rw [Bool.and_eq_true, Bool.and_eq_true] at h
        have hrest : rest ≠ [] := by simpa using h.1.2
        refine ⟨rest.reverse, ?_, ?_, Or.inr ⟨ch, ?_, ?_⟩⟩
        · simpa using hrest
        · intro c hc
          exact (by simpa [List.all_eq_true] using h.2 : ∀ c ∈ rest, c.isDigit = true)
            c (List.mem_reverse.1 hc)
        · simpa using h.1.1
        · rw [← List.reverse_reverse s.data, heq]
          simp
      · exact absurd h (by simp)
  · rintro ⟨ds, hne, hdig, hform⟩
    rw [Bool.or_eq_true]
    rcases hform with hform | ⟨c, hc, hform⟩
    · refine Or.inl ?_
      rw [Bool.and_eq_true, hform]
      exact ⟨by simpa [List.isEmpty_iff] using hne, by simpa [List.all_eq_true] using hdig⟩
    · refine Or.inr ?_
      rw [hform]
      simp only [List.reverse_append, List.reverse_cons, List.reverse_nil, List.nil_append,
        List.cons_append]
      rw [Bool.and_eq_true, Bool.and_eq_true]
      refine ⟨⟨by simpa using hc, ?_⟩, ?_⟩
      · simpa using hne
      · rw [List.all_eq_true]
        intro x hx
        exact hdig x (List.mem_reverse.1 hx)

theorem validateTags_iff (ts : List (String × String)) :
    validateTags ts = true ↔ ∀ kv ∈ ts, textMatch kv.1 = true ∧ textMatch kv.2 = true := by
  induction ts with
  | nil => simp [validateTags]
  | cons kv rest ih =>
    unfold validateTags
    cases h1 : textMatch kv.1 <;> cases h2 : textMatch kv.2 <;>
      simp [h1, h2, ih]

theorem metric_Validate_eq (m : metric) :
    m.Validate = (textMatch m.Name && textMatch m.MType && valueMatch m.Value && validateTags m.Tags) := by
  unfold metric.Validate
  cases textMatch m.Name <;> cases textMatch m.MType <;> cases valueMatch m.Value <;> simp

/-- C3: Validate holds exactly when the name and type are in the
language of textRegex, the value is in the language of valueRegex, and
every tag key and value is in the language of textRegex; any single
mismatch makes it false. -/
theorem metric_Validate_iff (m : metric) :
    m.Validate = true ↔
      (textPattern m.Name ∧ textPattern m.MType ∧ valuePattern m.Value ∧
       ∀ kv ∈ m.Tags, textPattern kv.1 ∧ textPattern kv.2) := by
  rw [metric_Validate_eq]
  simp only [Bool.and_eq_true]
  rw [textMatch_iff, textMatch_iff, valueMatch_iff, validateTags_iff]
  constructor
  · rintro ⟨⟨⟨hn, ht⟩, hv⟩, htags⟩
    exact ⟨hn, ht, hv, fun kv hkv => by
      have := htags kv hkv
      exact ⟨(textMatch_iff kv.1).1 this.1, (textMatch_iff kv.2).1 this.2⟩⟩
  · rintro ⟨hn, ht, hv, htags⟩
    exact ⟨⟨⟨hn, ht⟩, hv⟩, fun kv hkv => by
      have := htags kv hkv
      exact ⟨(textMatch_iff kv.1).2 this.1, (textMatch_iff kv.2).2 this.2⟩⟩

/-- Instance of the Validate characterisation at a concrete metric. -/
theorem metric_Validate_iff_witness :
    (metric.mk "up" "gauge" [("host", "db-1")] "1").Validate = true ↔
      (textPattern "up" ∧ textPattern "gauge" ∧ valuePattern "1" ∧
       ∀ kv ∈ [("host", "db-1")], textPattern kv.1 ∧ textPattern kv.2) :=
  metric_Validate_iff (metric.mk "up" "gauge" [("host", "db-1")] "1")

/-- C4: under the literal value pattern, the value "1.5" is rejected
while the value "5" is accepted, the other fields being equal and
valid. -/
theorem validate_value_one_point_five :
    (metric.mk "up" "gauge" [] "1.5").Validate = false ∧
    (metric.mk "up" "gauge" [] "5").Validate = true := by
  decide

/-- C10: metrics whose values contain a space, a double quote, or an
opening brace pass Validate, because the dot of the value pattern
matches any non-newline character; a fully validated metricFile built
from them renders those characters inside the value position of its
sample lines. -/
theorem validated_value_odd_characters :
    (metricFile.mk "odd" [metric.mk "m1" "gauge" [] "1 +",
      metric.mk "m2" "gauge" [] "1\"+",
      metric.mk "m3" "gauge" [] "1\x7b+"]).Validate = true ∧
    (' ' ∈ "1 +".data ∧ '"' ∈ "1\"+".data ∧ '\x7b' ∈ "1\x7b+".data) ∧
    (metricFile.mk "odd" [metric.mk "m1" "gauge" [] "1 +",
      metric.mk "m2" "gauge" [] "1\"+",
      metric.mk "m3" "gauge" [] "1\x7b+"]).String =
      "# TYPE m1 gauge\nm1 1 +\n\n# TYPE m2 gauge\nm2 1\"+\n\n# TYPE m3 gauge\nm3 1\x7b+\n\n" := by
  refine ⟨by decide, ⟨by decide, by decide, by decide⟩, rfl⟩

/-- No field of the metric contains a newline character. -/
def noNewlineFields (m : metric) : Prop :=
  '\n' ∉ m.Name.data ∧ '\n' ∉ m.MType.data ∧ '\n' ∉ m.Value.data ∧
  ∀ kv ∈ m.Tags, '\n' ∉ kv.1.data ∧ '\n' ∉ kv.2.data

/-- The rendering shape claimed for metric.String, stated from the
spec's words: exactly three newline-terminated lines, namely a type
comment line, a sample line, and a blank line. -/
def threeLineRender (m : metric) : Prop :=
  m.String.data.count '\n' = 3 ∧
  m.String = ("# TYPE " ++ m.Name ++ " " ++ m.MType) ++ "\n" ++
    (m.Name ++ m.TagString ++ " " ++ m.Value) ++ "\n" ++ "\n"

theorem textMatch_no_newline (s : String) (h : textMatch s = true) : '\n' ∉ s.data := by
  intro hm
  have := ((textMatch_iff s).1 h).2 '\n' hm
  exact absurd this (by decide)

theorem valueMatch_no_newline (s : String) (h : valueMatch s = true) : '\n' ∉ s.data := by
  rcases (valueMatch_iff s).1 h with ⟨ds, _, hdig, hform⟩
  intro hm
  rcases hform with hform | ⟨c, hc, hform⟩
  · rw [hform] at hm
    exact absurd (hdig '\n' hm) (by decide)
  · rw [hform] at hm
    rcases List.mem_append.1 hm with hm | hm
    · exact absurd (hdig '\n' hm) (by decide)
    · simp only [List.mem_cons, List.not_mem_nil, or_false] at hm
      rcases hm with hm | hm
      · exact hc hm.symm
      · exact absurd hm (by decide)

theorem joinSep_not_mem (c : Char) (sep : String) (hsep : c ∉ sep.data) :
    ∀ xs : List String, (∀ x ∈ xs, c ∉ x.data) → c ∉ (joinSep sep xs).data := by
  intro xs
  induction xs with
  | nil => intro _ hm; exact absurd hm (by simp [joinSep])
  | cons x rest ih =>
    intro hx hm
    cases rest with
    | nil => exact hx x (by simp) (by simpa [joinSep] using hm)
    | cons y ys =>
      rw [show joinSep sep (x :: y :: ys) = x ++ sep ++ joinSep sep (y :: ys) from rfl] at hm
      simp only [String.data_append, List.mem_append] at hm
      rcases hm with (hm | hm) | hm
      · exact hx x (by simp) hm
      · exact hsep hm
      · exact ih (fun z hz => hx z (List.mem_cons_of_mem x hz)) hm

theorem tagString_no_newline (m : metric)
    (h : ∀ kv ∈ m.Tags, '\n' ∉ kv.1.data ∧ '\n' ∉ kv.2.data) :
    '\n' ∉ m.TagString.data := by
  unfold metric.TagString
  split
  · simp
  · intro hm
    simp only [String.data_append, List.mem_append] at hm
    rcases hm with (hm | hm) | hm
    · exact absurd hm (by decide)
    · refine joinSep_not_mem '\n' "," (by decide) _ ?_ hm
      intro x hx
      rcases List.mem_map.1 hx with ⟨kv, hkv, hx⟩
      rw [← hx]
      intro hmm
      simp [String.data_append] at hmm
      rcases hmm with hmm | hmm
      · exact (h kv hkv).1 hmm
      · exact (h kv hkv).2 hmm
    · exact absurd hm (by decide)

theorem Validate_noNewlineFields (m : metric) (h : m.Validate = true) : noNewlineFields m := by
  rw [metric_Validate_eq, Bool.and_eq_true, Bool.and_eq_true, Bool.and_eq_true] at h
  refine ⟨textMatch_no_newline _ h.1.1.1, textMatch_no_newline _ h.1.1.2,
    valueMatch_no_newline _ h.1.2, ?_⟩
  intro kv hkv
  have := (validateTags_iff m.Tags).1 h.2 kv hkv
  exact ⟨textMatch_no_newline _ this.1, textMatch_no_newline _ this.2⟩

/-- C5 counterexample: a metric whose name contains a newline renders
four newline-terminated lines, not the claimed three. -/
theorem metric_render_not_three_lines :
    ¬ threeLineRender (metric.mk "a\nb" "gauge" [] "1") := by
  intro h
  exact absurd h.1 (by decide)

/-- C5 (amended): for a metric none of whose fields contains a newline
— in particular any metric passing Validate — String renders exactly
three newline-terminated lines, a type comment line, a sample line and
a blank line, with the tag block empty exactly for an empty tag map
and otherwise braces around comma-joined key="value" entries in
map-iteration order. -/
theorem metric_render_three_lines (m : metric)
    (h : m.Validate = true ∨ noNewlineFields m) :
    threeLineRender m ∧ (m.Tags = [] → m.TagString = "") ∧
    (m.Tags ≠ [] → m.TagString =
      "\x7b" ++ joinSep "," (m.Tags.map fun kv => kv.1 ++ "=\"" ++ kv.2 ++ "\"") ++ "\x7d") := by
  have hnl : noNewlineFields m := h.elim (Validate_noNewlineFields m) id
  obtain ⟨h1, h2, h3, h4⟩ := hnl
  have htag : '\n' ∉ m.TagString.data := tagString_no_newline m h4
  refine ⟨⟨?_, ?_⟩, ?_, ?_⟩
  · have c1 : m.Name.data.count '\n' = 0 := List.count_eq_zero.2 h1
    have c2 : m.MType.data.count '\n' = 0 := List.count_eq_zero.2 h2
    have c3 : m.Value.data.count '\n' = 0 := List.count_eq_zero.2 h3
    have c4 : m.TagString.data.count '\n' = 0 := List.count_eq_zero.2 htag
    simp [metric.String, String.data_append, List.count_append, c1, c2, c3, c4]
  · apply String.ext
    simp [metric.String, String.data_append]
  · intro ht
    simp [metric.TagString, ht]
  · intro ht
    rw [metric.TagString]
    simp only [List.length_eq_zero]
    rw [if_neg ht]

/-- Instance of the amended rendering shape at a concrete validated
metric. -/
theorem metric_render_three_lines_witness :
    threeLineRender (metric.mk "up" "gauge" [("host", "db-1")] "1") ∧
    ([(("host" : String), ("db-1" : String))] = [] →
      (metric.mk "up" "gauge" [("host", "db-1")] "1").TagString = "") ∧
    ([(("host" : String), ("db-1" : String))] ≠ [] →
      (metric.mk "up" "gauge" [("host", "db-1")] "1").TagString =
        "\x7b" ++ joinSep "," ([(("host" : String), ("db-1" : String))].map
          fun kv => kv.1 ++ "=\"" ++ kv.2 ++ "\"") ++ "\x7d") :=
  metric_render_three_lines (metric.mk "up" "gauge" [("host", "db-1")] "1")
    (Or.inl (by decide))

/-- C6: metricFile.Validate is false exactly when the name is empty or
some contained metric fails Validate; a non-empty name with an empty
metric list is valid and renders the empty string. -/
theorem metricFile_Validate_iff (mf : metricFile) :
    (mf.Validate = false ↔ (mf.FileName = "" ∨ ∃ m ∈ mf.Metrics, m.Validate = false)) ∧
    ((mf.FileName ≠ "" ∧ mf.Metrics = []) → (mf.Validate = true ∧ mf.String = "")) := by
  constructor
  · unfold metricFile.Validate
    by_cases h : mf.FileName = ""
    · simp [h]
    · rw [if_neg h]
      rw [List.all_eq_false]
      simp [h]
  · rintro ⟨h1, h2⟩
    constructor
    · simp [metricFile.Validate, h1, h2]
    · simp [metricFile.String, h2]

/-- Instance of the metricFile characterisation: a non-empty name with
no metrics validates and renders empty text. -/
theorem metricFile_Validate_iff_witness :
    (metricFile.mk "ok" []).Validate = true ∧ (metricFile.mk "ok" []).String = "" :=
  (metricFile_Validate_iff (metricFile.mk "ok" [])).2 ⟨by decide, rfl⟩

theorem readMetricsLoop_ok (store : String → fetchResult) (g : String → metricFile) :
    ∀ (files : List String) (acc : metricFile),
      (∀ f ∈ files, store f = .ok (g f) ∧ (g f).Validate = true) →
      readMetricsLoop store files acc =
        (⟨acc.FileName, acc.Metrics ++ (files.map fun f => (g f).Metrics).flatten⟩, none) := by
  intro files
  induction files with
  | nil => intro acc _; simp [readMetricsLoop]
  | cons f fs ih =>
    intro acc h
    have hf := h f (by simp)
    have hstep : readMetricFile store f = .ok (g f) := by
      unfold readMetricFile
      rw [hf.1]
      simp [hf.2]
    have ihr := ih ⟨acc.FileName, acc.Metrics ++ (g f).Metrics⟩
      (fun x hx => h x (List.mem_cons_of_mem f hx))
    unfold readMetricsLoop
    rw [hstep]
    show readMetricsLoop store fs ⟨acc.FileName, acc.Metrics ++ (g f).Metrics⟩ = _
    rw [ihr]
    simp [List.append_assoc]

/-- A store assigning a fixed decoded file to each key. -/
def storeOf (g : String → metricFile) : String → fetchResult :=
  fun f => .ok (g f)

/-- C1: when every listed object fetches, decodes and validates, the
aggregation returns the metricFile named with the reserved identifier
whose metric sequence is the concatenation of the listed files'
metrics, in listing order, with each file's internal order kept. -/
theorem readMetricsFrom_concat (store : String → fetchResult) (files : List String)
    (g : String → metricFile)
    (h : ∀ f ∈ files, store f = .ok (g f) ∧ (g f).Validate = true) :
    readMetricsFrom store files =
      (⟨"__all__", (files.map fun f => (g f).Metrics).flatten⟩, none) := by
  unfold readMetricsFrom
  rw [readMetricsLoop_ok store g files ⟨"__all__", []⟩ h]
  simp

/-- The decoded files of the two-object example: object a carries the
up gauge, object b the down gauge. -/
def gAB : String → metricFile := fun f =>
  if f = "a" then ⟨"a", [⟨"up", "gauge", [], "1"⟩]⟩
  else if f = "b" then ⟨"b", [⟨"down", "gauge", [], "0"⟩]⟩
  else ⟨"", []⟩

/-- Aggregating the two-object example: result named with the reserved
identifier, metrics a-then-b, and the rendered text holds both stanzas
in that order. -/
theorem readMetricsFrom_concat_witness :
    readMetricsFrom (storeOf gAB) ["a", "b"] =
      (⟨"__all__", [⟨"up", "gauge", [], "1"⟩, ⟨"down", "gauge", [], "0"⟩]⟩, none) ∧
    (metricFile.mk "__all__" [⟨"up", "gauge", [], "1"⟩, ⟨"down", "gauge", [], "0"⟩]).String =
      "# TYPE up gauge\nup 1\n\n# TYPE down gauge\ndown 0\n\n" := by
  refine ⟨?_, rfl⟩
  have := readMetricsFrom_concat (storeOf gAB) ["a", "b"] gAB (by decide)
  simpa using this

/-- C2: if any listed object fails to fetch, decode or validate, the
aggregation returns the zero metricFile (empty name, no metrics —
nothing from earlier objects) together with an error, and a validation
failure yields the error message naming the offending object key. -/
theorem readMetricsFrom_fail_fast (store : String → fetchResult) (files : List String)
    (h : ∃ f ∈ files, ∃ e, readMetricFile store f = .error e) :
    (∃ e2, readMetricsFrom store files = (⟨"", []⟩, some e2)) ∧
    (∀ f mf, store f = .ok mf → mf.Validate = false →
      readMetricFile store f = .error ("failed validation for " ++ f)) := by
  constructor
  · unfold readMetricsFrom
    generalize (⟨"__all__", []⟩ : metricFile) = acc
    induction files generalizing acc with
    | nil => rcases h with ⟨f, hf, _⟩; exact absurd hf (by simp)
    | cons f fs ih =>
      rcases hstep : readMetricFile store f with e | mf
      · exact ⟨e, by unfold readMetricsLoop; rw [hstep]⟩
      · rcases h with ⟨f2, hf2, e2, he2⟩
        rcases List.mem_cons.1 hf2 with rfl | hf2
        · rw [hstep] at he2; exact absurd he2 (by simp)
        · have := ih ⟨f2, hf2, e2, he2⟩ ⟨acc.FileName, acc.Metrics ++ mf.Metrics⟩
          rcases this with ⟨e3, he3⟩
          exact ⟨e3, by unfold readMetricsLoop; rw [hstep]; exact he3⟩
  · intro f mf hsf hval
    unfold readMetricFile
    rw [hsf]
    simp [hval]

/-- The two-object example where object b decodes to an invalid file
(empty name). -/
def storeBad : String → fetchResult := fun f =>
  if f = "a" then .ok ⟨"a", [⟨"up", "gauge", [], "1"⟩]⟩
  else .ok ⟨"", []⟩

/-- Fail-fast aggregation at the concrete store whose object b fails
validation. -/
theorem readMetricsFrom_fail_fast_witness :
    (∃ e2, readMetricsFrom storeBad ["a", "b"] = (⟨"", []⟩, some e2)) ∧
    (∀ f mf, storeBad f = .ok mf → mf.Validate = false →
      readMetricFile storeBad f = .error ("failed validation for " ++ f)) :=
  readMetricsFrom_fail_fast storeBad ["a", "b"]
    ⟨"b", by decide, "failed validation for b", by rfl⟩

theorem listMetricFilesLoop_empty (pages : List (Except String (List String)))
    (h : ∀ p ∈ pages, p = .ok []) :
    ∀ acc, listMetricFilesLoop pages acc = .ok acc := by
  induction pages with
  | nil => intro acc; rfl
  | cons p ps ih =>
    intro acc
    have hp := h p (by simp)
    unfold listMetricFilesLoop
    rw [hp]
    have := ih (fun q hq => h q (List.mem_cons_of_mem p hq)) acc
    simpa using this

/-- C9: when every listing page is empty (no stored objects), the read
path succeeds and returns the synthetic metricFile with the reserved
name and no metrics, rendering the empty document. -/
theorem readMetrics_empty_listing (store : String → fetchResult)
    (pages : List (Except String (List String)))
    (h : ∀ p ∈ pages, p = .ok []) :
    readMetrics store pages = (⟨"__all__", []⟩, none) ∧
    (readMetrics store pages).1.String = "" := by
  have hl : listMetricFiles pages = .ok [] := listMetricFilesLoop_empty pages h []
  have hr : readMetrics store pages = (⟨"__all__", []⟩, none) := by
    unfold readMetrics
    rw [hl]
    rfl
  exact ⟨hr, by rw [hr]; rfl⟩

/-- The empty-bucket read at a concrete store with no listing pages. -/
theorem readMetrics_empty_listing_witness :
    readMetrics (fun _ => .fetchErr "NoSuchKey") [] = (⟨"__all__", []⟩, none) ∧
    (readMetrics (fun _ => .fetchErr "NoSuchKey") []).1.String = "" :=
  readMetrics_empty_listing (fun _ => .fetchErr "NoSuchKey") [] (by simp)

/-- C7: whenever the submission fails to decode, fails to unmarshal, or
unmarshals to a metricFile failing Validate, the handler answers with a
failure and attempts no PutObject call: the store write happens only
after validation succeeds. -/
theorem metricHandler_no_store_on_invalid (body : Except String String)
    (unmarshal : String → Except String metricFile)
    (marshal : metricFile → Except String String) (client : Except String Unit)
    (put : String → String → Except String Unit)
    (h : ∀ b mf, body = .ok b → unmarshal b = .ok mf → mf.Validate = false) :
    (metricHandler body unmarshal marshal client put).2 = [] ∧
    ∃ msg, (metricHandler body unmarshal marshal client put).1 = .fail msg := by
  rcases body with e | b
  · exact ⟨rfl, "failed to decode: " ++ e, rfl⟩
  · rcases hu : unmarshal b with e | mf
    · refine ⟨?_, "failed to unmarshal: " ++ e, ?_⟩ <;> simp [metricHandler, hu]
    · have hv := h b mf rfl hu
      refine ⟨?_, "failed validation", ?_⟩ <;> simp [metricHandler, hu, hv]

/-- A submission that unmarshals to a metricFile with an empty name and
otherwise-valid metrics is rejected with no store write, even with
every collaborator healthy. -/
theorem metricHandler_no_store_on_invalid_witness :
    (metricHandler (.ok "body") (fun _ => .ok ⟨"", [⟨"up", "gauge", [], "1"⟩]⟩)
      (fun _ => .ok "payload") (.ok ()) (fun _ _ => .ok ())).2 = [] ∧
    ∃ msg, (metricHandler (.ok "body") (fun _ => .ok ⟨"", [⟨"up", "gauge", [], "1"⟩]⟩)
      (fun _ => .ok "payload") (.ok ()) (fun _ _ => .ok ())).1 = .fail msg :=
  metricHandler_no_store_on_invalid (.ok "body")
    (fun _ => .ok ⟨"", [⟨"up", "gauge", [], "1"⟩]⟩) (fun _ => .ok "payload") (.ok ())
    (fun _ _ => .ok ())
    (by
      intro b mf _ hm
      cases hm
      decide)

theorem decodeTagList_encode (ts : List (String × String)) :
    decodeTagList (ts.map fun kv => (kv.1, .str kv.2)) = .ok ts := by
  induction ts with
  | nil => rfl
  | cons kv rest ih => simp [decodeTagList, ih]

theorem decodeMetric_encode (m : metric) : decodeMetric (encodeMetric m) = .ok m := by
  simp [decodeMetric, encodeMetric, Json.getField, List.lookup, decodeStrField,
    decodeTagsField, decodeTagList_encode]

theorem decodeMetricList_encode (ms : List metric) :
    decodeMetricList (ms.map encodeMetric) = .ok ms := by
  induction ms with
  | nil => rfl
  | cons m rest ih => simp [decodeMetricList, decodeMetric_encode, ih]

theorem decodeMetricFile_encode (mf : metricFile) :
    decodeMetricFile (encodeMetricFile mf) = .ok mf := by
  simp [decodeMetricFile, encodeMetricFile, Json.getField, List.lookup, decodeStrField,
    decodeMetricsField, decodeMetricList_encode]

/-- C8: encoding a metricFile to the structured form and decoding it
back succeeds and yields a metricFile whose rendered text equals the
original's rendered text. -/
theorem encode_decode_roundtrip (mf : metricFile) :
    ∃ mf2, decodeMetricFile (encodeMetricFile mf) = .ok mf2 ∧ mf2.String = mf.String :=
  ⟨mf, decodeMetricFile_encode mf, rfl⟩

end HookExporter
